import Mathlib

/-!
Verification development for `ctgovchat.py`, an interactive
conversation-to-SQL feedback loop.  Strings are modelled as `List Char`
(a Python `str` value `s` corresponds to `s.data` of the matching Lean
string literal).  Python's default `str.strip()` is modelled on the ASCII
whitespace characters, which is all that the program's inputs exercise.
-/

set_option autoImplicit false

namespace CtgovChat

/-- The backtick character (code point 96), the building block of the
triple-backtick code-fence delimiter used by `extract_queries_from_response`. -/
def bq : Char := Char.ofNat 96

/-- Whether three consecutive characters form the triple-backtick fence
delimiter that `response_content.split` cuts on. -/
def fenceAt (c1 c2 c3 : Char) : Bool :=
  (c1 == bq) && (c2 == bq) && (c3 == bq)

/-- ASCII whitespace, the characters removed by Python's `str.strip()`
on the program's inputs (space, tab, newline, carriage return, vertical
tab, form feed). -/
def isPySpace (c : Char) : Bool :=
  (c == ' ') || (c == '\t') || (c == '\n') || (c == '\r') ||
    (c == Char.ofNat 11) || (c == Char.ofNat 12)

/-- Python `str.strip()`: drop leading and trailing whitespace. -/
def pyStrip (s : List Char) : List Char :=
  ((s.dropWhile isPySpace).reverse.dropWhile isPySpace).reverse

/-- Python `str.lower()` restricted to ASCII, as used by the quit-signal
checks `next_message.lower() == 'q'`. -/
def pyLower (s : List Char) : List Char :=
  s.map Char.toLower

/-- Python `chunk.replace("sql", "")` from line 106: delete every
non-overlapping occurrence of the substring `sql`, scanning left to right. -/
def removeSql : List Char → List Char
  | 's' :: 'q' :: 'l' :: rest => removeSql rest
  | c :: rest => c :: removeSql rest
  | [] => []

/-- Python `response_content.split("```")` from line 105: cut the text at
every non-overlapping occurrence of the triple-backtick delimiter, scanning
left to right; the delimiter occurrences themselves are dropped.  The result
always has one more part than there are delimiter occurrences. -/
def splitFence : List Char → List (List Char)
  | [] => [[]]
  | [c1] => [[c1]]
  | [c1, c2] => [[c1, c2]]
  | c1 :: c2 :: c3 :: rest =>
    if fenceAt c1 c2 c3 then
      [] :: splitFence rest
    else
      match splitFence (c2 :: c3 :: rest) with
      | [] => [[c1]]
      | t :: ts => (c1 :: t) :: ts

/-- Whether the text contains a triple-backtick fence delimiter
(`"```" in s` in Python terms). -/
def containsFence : List Char → Bool
  | c1 :: c2 :: c3 :: rest => fenceAt c1 c2 c3 || containsFence (c2 :: c3 :: rest)
  | _ => false

/-- The number of fence delimiter occurrences in the reply: one less than
the number of parts `splitFence` produces. -/
def numDelims (s : List Char) : Nat :=
  (splitFence s).length - 1

/-- `extract_queries_from_response` (lines 104-107): split the reply on the
triple-backtick delimiter, keep the chunks at odd indices, and map each
through `replace("sql", "")` followed by `strip()`.  There is no
non-emptiness filter in the source. -/
def extract_queries_from_response (s : List Char) : List (List Char) :=
  ((splitFence s).enum.filter (fun p => p.1 % 2 != 0)).map
    (fun p => pyStrip (removeSql p.2))

/-- Modelled from the spec's words, for comparison with the source's
transformation: strip the literal language tag `sql` only when it occurs at
the very start of the fenced segment, then strip surrounding whitespace. -/
def specStripLeadingTag : List Char → List Char
  | 's' :: 'q' :: 'l' :: rest => pyStrip rest
  | s => pyStrip s

/-- The elements of a list sitting at odd indices (1, 3, 5, ...): the
fenced regions of a reply, in the split-on-delimiter reading. -/
def oddChunks {α : Type} : List α → List α
  | [] => []
  | [_] => []
  | _ :: b :: rest => b :: oddChunks rest

/-- The elements of a list sitting at even indices (0, 2, 4, ...): the
prose regions of a reply. -/
def evenChunks {α : Type} : List α → List α
  | [] => []
  | a :: rest => a :: oddChunks rest

theorem oddChunks_cons {α : Type} (a : α) (l : List α) :
    oddChunks (a :: l) = evenChunks l := by
  cases l <;> rfl

theorem oddChunks_length {α : Type} : ∀ l : List α, (oddChunks l).length = l.length / 2
  | [] => by simp [oddChunks]
  | [_] => by simp [oddChunks]
  | _ :: _ :: rest => by
    simp only [oddChunks, List.length_cons, oddChunks_length rest]
    omega

theorem splitFence_ne_nil : ∀ s : List Char, splitFence s ≠ []
  | [] => by simp [splitFence]
  | [_] => by simp [splitFence]
  | [_, _] => by simp [splitFence]
  | c1 :: c2 :: c3 :: rest => by
    simp only [splitFence]
    split
    · simp
    · split <;> simp

theorem splitFence_of_not_containsFence :
    ∀ s : List Char, containsFence s = false → splitFence s = [s]
  | [], _ => rfl
  | [_], _ => rfl
  | [_, _], _ => rfl
  | c1 :: c2 :: c3 :: rest, h => by
    simp only [containsFence, Bool.or_eq_false_iff] at h
    obtain ⟨h1, h2⟩ := h
    have ih := splitFence_of_not_containsFence (c2 :: c3 :: rest) h2
    simp [splitFence, h1, ih]

theorem enumFrom_filter_odd_map {α β : Type} (f : α → β) :
    ∀ (l : List α) (k : Nat),
      ((List.enumFrom k l).filter (fun p => p.1 % 2 != 0)).map (fun p => f p.2)
        = (if k % 2 = 0 then (oddChunks l).map f else (evenChunks l).map f) := by
  intro l
  induction l with
  | nil =>
    intro k
    simp [List.enumFrom, oddChunks, evenChunks]
  | cons a l ih =>
    intro k
    have e1 : List.enumFrom k (a :: l) = (k, a) :: List.enumFrom (k + 1) l := rfl
    rw [e1, List.filter_cons]
    rcases Nat.mod_two_eq_zero_or_one k with hk | hk
    · have hk1 : (k + 1) % 2 = 1 := by omega
      have ih1 := ih (k + 1)
      rw [hk1] at ih1
      have hc : (((k, a).1 % 2 != 0) : Bool) = false := by simp [hk]
      rw [hc, if_pos hk, oddChunks_cons]
      simpa using ih1
    · have hk1 : (k + 1) % 2 = 0 := by omega
      have ih1 := ih (k + 1)
      rw [hk1] at ih1
      have hc : (((k, a).1 % 2 != 0) : Bool) = true := by simp [hk]
      rw [hc, if_neg (by omega : ¬ k % 2 = 0)]
      simp only [evenChunks, List.map, if_true, List.map_cons]
      simpa [hk1] using ih1

/-- The extraction of lines 104-107 keeps exactly the odd-indexed chunks of
the fence split, in order, each mapped through `replace("sql","")` and
`strip()`. -/
theorem extract_eq_map (s : List Char) :
    extract_queries_from_response s
      = (oddChunks (splitFence s)).map (fun c => pyStrip (removeSql c)) := by
  have h := enumFrom_filter_odd_map (fun c => pyStrip (removeSql c)) (splitFence s) 0
  simpa [extract_queries_from_response, List.enum] using h

theorem oddChunks_getLast? {α : Type} :
    ∀ l : List α, l.length % 2 = 0 → l ≠ [] →
      (oddChunks l).getLast? = l.getLast?
  | [], _, h => absurd rfl h
  | [_], hm, _ => by simp at hm
  | a :: b :: rest, hm, _ => by
    by_cases hrest : rest = []
    · subst hrest; rfl
    · have hm' : rest.length % 2 = 0 := by
        simp only [List.length_cons] at hm
        omega
      have ih := oddChunks_getLast? rest hm' hrest
      have hlen : rest.length ≠ 0 := fun h => hrest (List.length_eq_zero.mp h)
      have hpos : 0 < (oddChunks rest).length := by
        rw [oddChunks_length]
        omega
      have hodd : oddChunks rest ≠ [] := by
        intro hcon
        rw [hcon] at hpos
        simp at hpos
      calc (oddChunks (a :: b :: rest)).getLast?
          = (b :: oddChunks rest).getLast? := rfl
        _ = (oddChunks rest).getLast? := by
            cases hoc : oddChunks rest with
            | nil => exact absurd hoc hodd
            | cons d ds => exact List.getLast?_cons_cons
        _ = rest.getLast? := ih
        _ = (b :: rest).getLast? := by
            cases hr2 : rest with
            | nil => exact absurd hr2 hrest
            | cons c rest' => exact List.getLast?_cons_cons.symm
        _ = (a :: b :: rest).getLast? := List.getLast?_cons_cons.symm

/-- A result row as returned by the `RealDictCursor`: an ordered mapping
from column name to the textual rendering of its value. -/
abbrev Row : Type := List (List Char × List Char)

/-- The outcome the execution loop observes for one candidate statement:
the fetched rows on success, the exception message on failure. -/
inductive ExecutionOutcome : Type where
  | success (rows : List Row)
  | failure (message : List Char)
deriving DecidableEq

/-- The success text appended to `result_string` at line 197.  The external
pretty-printer `tabulate(result, headers='keys', tablefmt='plain')` is the
parameter `tab`; the source applies it to the full fetched row list. -/
def renderSuccess (tab : List Row → List Char) (query : List Char)
    (rows : List Row) : List Char :=
  ("\n\nI ran `").data ++ query ++ ("` and it returned ").data
    ++ (toString rows.length).data
    ++ (" rows. Here are the first few rows:\n").data
    ++ tab rows ++ ("\n").data

/-- The failure text appended to `result_string` at line 200. -/
def renderFailure (query : List Char) (msg : List Char) : List Char :=
  ("\nResult for `").data ++ query ++ ("` was an error: ").data
    ++ msg ++ ("\n").data

/-- The outcome of handing one statement to the database transport `db`
(`cursor.execute` + `fetchall`, which either returns rows or raises). -/
def outcomeOf (db : List Char → Except (List Char) (List Row))
    (q : List Char) : ExecutionOutcome :=
  match db q with
  | Except.ok rows => ExecutionOutcome.success rows
  | Except.error e => ExecutionOutcome.failure e

/-- The text one statement contributes to `result_string`. -/
def renderOf (db : List Char → Except (List Char) (List Row))
    (tab : List Row → List Char) (q : List Char) : List Char :=
  match db q with
  | Except.ok rows => renderSuccess tab q rows
  | Except.error e => renderFailure q e

/-- The execution loop of lines 190-200: for each candidate in order, try
to execute it; on success append the success text, on a raised error append
the error text, and continue with the next candidate.  Returns the sequence
of observed outcomes together with the accumulated `result_string`. -/
def runQueries (db : List Char → Except (List Char) (List Row))
    (tab : List Row → List Char) (queries : List (List Char)) :
    List ExecutionOutcome × List Char :=
  queries.foldl
    (fun acc q =>
      match db q with
      | Except.ok rows =>
        (acc.1 ++ [ExecutionOutcome.success rows], acc.2 ++ renderSuccess tab q rows)
      | Except.error e =>
        (acc.1 ++ [ExecutionOutcome.failure e], acc.2 ++ renderFailure q e))
    ([], [])

/-- The execution loop processes each candidate independently: the outcome
list is the pointwise image of the candidate list under `outcomeOf`, and the
feedback string is the concatenation of the per-statement renderings. -/
theorem runQueries_eq (db : List Char → Except (List Char) (List Row))
    (tab : List Row → List Char) (qs : List (List Char)) :
    runQueries db tab qs
      = (qs.map (outcomeOf db), (qs.map (renderOf db tab)).flatten) := by
  have gen : ∀ (l : List (List Char)) (o : List ExecutionOutcome) (a : List Char),
      List.foldl
        (fun acc q =>
          match db q with
          | Except.ok rows =>
            (acc.1 ++ [ExecutionOutcome.success rows], acc.2 ++ renderSuccess tab q rows)
          | Except.error e =>
            (acc.1 ++ [ExecutionOutcome.failure e], acc.2 ++ renderFailure q e))
        (o, a) l
      = (o ++ l.map (outcomeOf db), a ++ (l.map (renderOf db tab)).flatten) := by
    intro l
    induction l with
    | nil => intro o a; simp
    | cons q l ih =>
      intro o a
      rw [List.map_cons, List.map_cons, List.flatten, List.foldl_cons]
      cases h : db q with
      | ok rows =>
        rw [ih]
        simp [outcomeOf, renderOf, h]
      | error e =>
        rw [ih]
        simp [outcomeOf, renderOf, h]
  have := gen qs [] []
  simpa [runQueries] using this

/-- The visible result of one model-transport call: the reply text, or a
raised exception (any exception counts the same way in the retry loop). -/
inductive ModelResult : Type where
  | ok (reply : List Char)
  | fail
deriving DecidableEq

/-- The way the retry loop of lines 162-177 finishes.  `nextK` is the index
of the next unused transport call, so `nextK - k` counts the calls made
since entering the loop at call index `k`.  `whileExit` models falling out
of `while num_tries < 4` with `response = None` (unreachable when the loop
is entered with `num_tries = 0`). -/
inductive RetryResult : Type where
  | success (reply : List Char) (nextK : Nat)
  | gaveUp (nextK : Nat)
  | whileExit (nextK : Nat)
deriving DecidableEq

/-- One iteration structure of the retry loop: `while num_tries < 4` makes a
call; on success it breaks with the reply; on an exception it increments
`num_tries` and returns (gives up) as soon as `num_tries >= 3`.  The fuel
argument bounds the iteration count; 4 units are enough for every run. -/
def retryGo (model : Nat → ModelResult) : Nat → Nat → Nat → RetryResult
  | 0, k, _ => RetryResult.whileExit k
  | fuel + 1, k, numTries =>
    if numTries < 4 then
      match model k with
      | ModelResult.ok r => RetryResult.success r (k + 1)
      | ModelResult.fail =>
        if numTries + 1 ≥ 3 then RetryResult.gaveUp (k + 1)
        else retryGo model fuel (k + 1) (numTries + 1)
    else RetryResult.whileExit k

/-- The retry loop of lines 162-177, entered with `num_tries = 0` and the
transport positioned at call index `k`. -/
def retryLoop (model : Nat → ModelResult) (k : Nat) : RetryResult :=
  retryGo model 4 k 0

/-- How a run of the conversation loop of lines 158-208 ends. -/
inductive EndReason : Type where
  | quit        -- the user typed the quit signal; `break` then `conn.close()`
  | gaveUp      -- the retry loop printed "Giving up." and returned from main
  | crashed     -- `while` exhaustion left `response = None` (unreachable)
  | outOfInput  -- the scripted user input ran out; the session is still blocked
deriving DecidableEq

/-- The observables of a run of the conversation loop: why it stopped, how
many times `conn.close()` ran, and the `result_string` of each completed
turn in order. -/
structure SessionResult : Type where
  reason : EndReason
  closes : Nat
  feedbacks : List (List Char)
deriving DecidableEq

/-- The conversation loop of lines 158-208, starting a turn with the model
transport at call index `k` and the scripted follow-up inputs remaining.
Each turn: run the retry loop (giving up returns from `main` without
touching the connection), extract the candidates from the reply, execute
them building `result_string`, then read the follow-up input; the
case-insensitive quit signal breaks out of the loop, after which
`conn.close()` runs exactly once. -/
def sessionLoop (model : Nat → ModelResult)
    (db : List Char → Except (List Char) (List Row))
    (tab : List Row → List Char) : Nat → List (List Char) → SessionResult
  | k, [] =>
    match retryLoop model k with
    | RetryResult.gaveUp _ => ⟨EndReason.gaveUp, 0, []⟩
    | RetryResult.whileExit _ => ⟨EndReason.crashed, 0, []⟩
    | RetryResult.success reply _ =>
      ⟨EndReason.outOfInput, 0,
        [(runQueries db tab (extract_queries_from_response reply)).2]⟩
  | k, u :: rest =>
    match retryLoop model k with
    | RetryResult.gaveUp _ => ⟨EndReason.gaveUp, 0, []⟩
    | RetryResult.whileExit _ => ⟨EndReason.crashed, 0, []⟩
    | RetryResult.success reply k' =>
      let fb := (runQueries db tab (extract_queries_from_response reply)).2
      if pyLower u = ("q").data then ⟨EndReason.quit, 1, [fb]⟩
      else
        let r := sessionLoop model db tab k' rest
        ⟨r.reason, r.closes, fb :: r.feedbacks⟩

/-- One row of the column catalog returned by `get_schema`: table name,
column name, declared type, nullability flag, and the (unused by the
formatter) column default. -/
structure SchemaRow : Type where
  table_name : List Char
  column_name : List Char
  data_type : List Char
  is_nullable : List Char
  column_default : Option (List Char)
deriving DecidableEq

/-- Python dict lookup on an insertion-ordered association list: the value
of the first matching key, or `none` when the key is absent (`d[k]` raises
`KeyError` exactly when this returns `none`; `d.get(k, dflt)` substitutes
the default instead). -/
def lookupA {β : Type} : List (List Char × β) → List Char → Option β
  | [], _ => none
  | (k', v) :: rest, k => if k' = k then some v else lookupA rest k

/-- One step of the grouping loop of lines 72-76: `if table_name not in
tables: tables[table_name] = []` then `tables[table_name].append(row)`,
on an insertion-ordered association list. -/
def addRow (tables : List (List Char × List SchemaRow)) (row : SchemaRow) :
    List (List Char × List SchemaRow) :=
  match tables with
  | [] => [(row.table_name, [row])]
  | (t, rs) :: rest =>
    if t = row.table_name then (t, rs ++ [row]) :: rest
    else (t, rs) :: addRow rest row

/-- The grouping loop of lines 72-76: group catalog rows under their table,
preserving the catalog's column order and first-seen table order. -/
def groupByTable (schema : List SchemaRow) : List (List Char × List SchemaRow) :=
  schema.foldl addRow []

/-- The example value of line 83 once the sample-row lookup has succeeded:
`'N/A' if sample is None else sample.get(column_name, 'N/A')`. -/
def exampleValue (sample : Option Row) (cname : List Char) : List Char :=
  match sample with
  | none => ("N/A").data
  | some rowMap => (lookupA rowMap cname).getD (("N/A").data)

/-- One column line of lines 83-84.  `example_rows[table_name]` is a plain
dict subscript: a missing table key raises `KeyError`, modelled as the
`Except.error` branch. -/
def columnLine (er : List (List Char × Option Row)) (tname : List Char)
    (col : SchemaRow) : Except (List Char) (List Char) :=
  match lookupA er tname with
  | none => Except.error (("KeyError: ").data ++ tname)
  | some sample =>
    Except.ok (("  ").data ++ col.column_name ++ (" ").data ++ col.data_type
      ++ (" ").data
      ++ (if col.is_nullable = ("YES").data then ("NULL").data else ("NOT NULL").data)
      ++ ("; Example: ").data ++ exampleValue sample col.column_name)

/-- The inner loop of lines 80-85: build the column lines of one table in
order, propagating the first raised `KeyError`. -/
def buildColumnStrings (er : List (List Char × Option Row)) (tname : List Char) :
    List SchemaRow → Except (List Char) (List (List Char))
  | [] => Except.ok []
  | col :: rest =>
    match columnLine er tname col with
    | Except.error e => Except.error e
    | Except.ok line =>
      match buildColumnStrings er tname rest with
      | Except.error e => Except.error e
      | Except.ok lines => Except.ok (line :: lines)

/-- Line 86: the text block of one table. -/
def tableString (er : List (List Char × Option Row)) (tname : List Char)
    (cols : List SchemaRow) : Except (List Char) (List Char) :=
  match buildColumnStrings er tname cols with
  | Except.error e => Except.error e
  | Except.ok lines =>
    Except.ok (("Table ").data ++ tname ++ (":\n").data
      ++ List.intercalate ("\n").data lines)

/-- The outer loop of lines 79-87: build each table's block in first-seen
order, propagating the first raised `KeyError`. -/
def buildTableStrings (er : List (List Char × Option Row)) :
    List (List Char × List SchemaRow) → Except (List Char) (List (List Char))
  | [] => Except.ok []
  | (t, cols) :: rest =>
    match tableString er t cols with
    | Except.error e => Except.error e
    | Except.ok ts =>
      match buildTableStrings er rest with
      | Except.error e => Except.error e
      | Except.ok tss => Except.ok (ts :: tss)

/-- `format_schema` (lines 70-89): group the catalog by table, render every
column line with its example value, and join the table blocks with blank
lines.  A table name missing from `example_rows` raises `KeyError`. -/
def format_schema (schema : List SchemaRow)
    (example_rows : List (List Char × Option Row)) :
    Except (List Char) (List Char) :=
  match buildTableStrings example_rows (groupByTable schema) with
  | Except.error e => Except.error e
  | Except.ok tstrs => Except.ok (List.intercalate ("\n\n").data tstrs)

theorem columnLine_isOk {er : List (List Char × Option Row)} {tname : List Char}
    (col : SchemaRow) (h : (lookupA er tname).isSome) :
    ∃ line, columnLine er tname col = Except.ok line := by
  cases hl : lookupA er tname with
  | none => rw [hl] at h; simp at h
  | some sample => exact ⟨_, by unfold columnLine; rw [hl]⟩

theorem buildColumnStrings_isOk {er : List (List Char × Option Row)}
    {tname : List Char} (h : (lookupA er tname).isSome) :
    ∀ cols : List SchemaRow, ∃ ls, buildColumnStrings er tname cols = Except.ok ls
  | [] => ⟨[], rfl⟩
  | col :: rest => by
    obtain ⟨line, hline⟩ := columnLine_isOk col h
    obtain ⟨ls, hls⟩ := buildColumnStrings_isOk h rest
    exact ⟨line :: ls, by simp [buildColumnStrings, hline, hls]⟩

theorem tableString_isOk {er : List (List Char × Option Row)} {tname : List Char}
    (cols : List SchemaRow) (h : (lookupA er tname).isSome) :
    ∃ ts, tableString er tname cols = Except.ok ts := by
  obtain ⟨ls, hls⟩ := buildColumnStrings_isOk h cols
  exact ⟨_, by unfold tableString; rw [hls]⟩

theorem buildTableStrings_isOk {er : List (List Char × Option Row)} :
    ∀ entries : List (List Char × List SchemaRow),
      (∀ e ∈ entries, (lookupA er e.1).isSome) →
      ∃ tss, buildTableStrings er entries = Except.ok tss
  | [], _ => ⟨[], rfl⟩
  | (t, cols) :: rest, h => by
    obtain ⟨ts, hts⟩ := tableString_isOk cols (h (t, cols) (by simp))
    obtain ⟨tss, htss⟩ :=
      buildTableStrings_isOk rest (fun e he => h e (List.mem_cons_of_mem _ he))
    exact ⟨ts :: tss, by simp [buildTableStrings, hts, htss]⟩

theorem addRow_keys_mem {k : List Char} :
    ∀ (acc : List (List Char × List SchemaRow)) (row : SchemaRow),
      k ∈ (addRow acc row).map Prod.fst →
      k ∈ acc.map Prod.fst ∨ k = row.table_name
  | [], row => by
    intro h
    simp [addRow] at h
    exact Or.inr h
  | (t, rs) :: rest, row => by
    intro h
    by_cases ht : t = row.table_name
    · simp only [addRow, if_pos ht, List.map_cons, List.mem_cons] at h
      simp only [List.map_cons, List.mem_cons]
      rcases h with h | h
      · exact Or.inl (Or.inl h)
      · exact Or.inl (Or.inr h)
    · simp only [addRow, if_neg ht, List.map_cons, List.mem_cons] at h
      simp only [List.map_cons, List.mem_cons]
      rcases h with h | h
      · exact Or.inl (Or.inl h)
      · rcases addRow_keys_mem rest row h with h' | h'
        · exact Or.inl (Or.inr h')
        · exact Or.inr h'

theorem foldl_addRow_keys {k : List Char} :
    ∀ (l : List SchemaRow) (acc : List (List Char × List SchemaRow)),
      k ∈ (List.foldl addRow acc l).map Prod.fst →
      k ∈ acc.map Prod.fst ∨ ∃ r ∈ l, r.table_name = k
  | [], acc => by simp
  | row :: l, acc => by
    intro h
    rcases foldl_addRow_keys l (addRow acc row) h with h' | h'
    · rcases addRow_keys_mem acc row h' with h'' | h''
      · exact Or.inl h''
      · exact Or.inr ⟨row, by simp, h''.symm⟩
    · obtain ⟨r, hr, hrk⟩ := h'
      exact Or.inr ⟨r, List.mem_cons_of_mem _ hr, hrk⟩

/-- Every table grouped by lines 72-76 is the table of some catalog row. -/
theorem groupByTable_keys {schema : List SchemaRow} {k : List Char}
    (h : k ∈ (groupByTable schema).map Prod.fst) :
    ∃ r ∈ schema, r.table_name = k := by
  rcases foldl_addRow_keys schema [] h with h' | h'
  · simp at h'
  · exact h'

theorem addRow_self_mem_keys (row : SchemaRow) :
    ∀ acc : List (List Char × List SchemaRow),
      row.table_name ∈ (addRow acc row).map Prod.fst
  | [] => by simp [addRow]
  | (t, rs) :: rest => by
    by_cases ht : t = row.table_name
    · simp [addRow, ht]
    · simp only [addRow, if_neg ht, List.map_cons, List.mem_cons]
      exact Or.inr (addRow_self_mem_keys row rest)

theorem addRow_keys_mono {k : List Char} (row : SchemaRow) :
    ∀ acc : List (List Char × List SchemaRow),
      k ∈ acc.map Prod.fst → k ∈ (addRow acc row).map Prod.fst
  | [] => by simp
  | (t, rs) :: rest => by
    intro h
    by_cases ht : t = row.table_name
    · simp only [addRow, if_pos ht, List.map_cons, List.mem_cons]
      simp only [List.map_cons, List.mem_cons] at h
      exact h
    · simp only [addRow, if_neg ht, List.map_cons, List.mem_cons]
      simp only [List.map_cons, List.mem_cons] at h
      rcases h with h | h
      · exact Or.inl h
      · exact Or.inr (addRow_keys_mono row rest h)

theorem foldl_addRow_keys_mono {k : List Char} :
    ∀ (l : List SchemaRow) (acc : List (List Char × List SchemaRow)),
      k ∈ acc.map Prod.fst → k ∈ (List.foldl addRow acc l).map Prod.fst
  | [], _ => fun h => h
  | row :: l, acc => fun h =>
    foldl_addRow_keys_mono l (addRow acc row) (addRow_keys_mono row acc h)

theorem foldl_addRow_mem_keys :
    ∀ (l : List SchemaRow) (acc : List (List Char × List SchemaRow)),
      ∀ r ∈ l, r.table_name ∈ (List.foldl addRow acc l).map Prod.fst
  | [], _ => by simp
  | row :: l, acc => by
    intro r hr
    rcases List.mem_cons.mp hr with h' | h'
    · subst h'
      exact foldl_addRow_keys_mono l (addRow acc r) (addRow_self_mem_keys r acc)
    · exact foldl_addRow_mem_keys l (addRow acc row) r h'

/-- Every catalog row's table shows up as a grouped table. -/
theorem groupByTable_mem_keys {schema : List SchemaRow} {r : SchemaRow}
    (h : r ∈ schema) :
    r.table_name ∈ (groupByTable schema).map Prod.fst :=
  foldl_addRow_mem_keys schema [] r h

theorem addRow_snd_ne_nil {acc : List (List Char × List SchemaRow)}
    {row : SchemaRow} (hacc : ∀ e ∈ acc, e.2 ≠ []) :
    ∀ e ∈ addRow acc row, e.2 ≠ [] := by
  induction acc with
  | nil =>
    intro e he
    simp [addRow] at he
    subst he
    simp
  | cons p rest ih =>
    obtain ⟨t, rs⟩ := p
    intro e he
    by_cases ht : t = row.table_name
    · rw [addRow, if_pos ht] at he
      rcases List.mem_cons.mp he with h' | h'
      · subst h'; simp
      · exact hacc e (List.mem_cons_of_mem _ h')
    · rw [addRow, if_neg ht] at he
      rcases List.mem_cons.mp he with h' | h'
      · subst h'; exact hacc (t, rs) (by simp)
      · exact ih (fun e' he' => hacc e' (List.mem_cons_of_mem _ he')) e h'

theorem foldl_addRow_snd_ne_nil :
    ∀ (l : List SchemaRow) (acc : List (List Char × List SchemaRow)),
      (∀ e ∈ acc, e.2 ≠ []) →
      ∀ e ∈ List.foldl addRow acc l, e.2 ≠ []
  | [], _ => fun hacc => hacc
  | row :: l, acc => fun hacc =>
    foldl_addRow_snd_ne_nil l (addRow acc row) (addRow_snd_ne_nil hacc)

/-- Every grouped table carries at least one catalog row. -/
theorem groupByTable_snd_ne_nil {schema : List SchemaRow} :
    ∀ e ∈ groupByTable schema, e.2 ≠ [] :=
  foldl_addRow_snd_ne_nil schema [] (by simp)

theorem buildColumnStrings_error_of_lookup_none
    {er : List (List Char × Option Row)} {tname : List Char}
    (hmiss : lookupA er tname = none) (col : SchemaRow) (rest : List SchemaRow) :
    buildColumnStrings er tname (col :: rest)
      = Except.error (("KeyError: ").data ++ tname) := by
  have hcl : columnLine er tname col = Except.error (("KeyError: ").data ++ tname) := by
    unfold columnLine
    rw [hmiss]
  rw [buildColumnStrings, hcl]

theorem tableString_error_of_lookup_none
    {er : List (List Char × Option Row)} {tname : List Char}
    (hmiss : lookupA er tname = none) {cols : List SchemaRow} (hne : cols ≠ []) :
    tableString er tname cols = Except.error (("KeyError: ").data ++ tname) := by
  cases cols with
  | nil => exact absurd rfl hne
  | cons col rest =>
    rw [tableString, buildColumnStrings_error_of_lookup_none hmiss col rest]

theorem buildTableStrings_error {er : List (List Char × Option Row)} :
    ∀ entries : List (List Char × List SchemaRow),
      (∃ e ∈ entries, lookupA er e.1 = none ∧ e.2 ≠ []) →
      ∃ msg, buildTableStrings er entries = Except.error msg
  | [], h => by simp at h
  | (t, cols) :: rest, h => by
    cases hts : tableString er t cols with
    | error msg => exact ⟨msg, by rw [buildTableStrings, hts]⟩
    | ok ts =>
      obtain ⟨e, he, hmiss, hne⟩ := h
      rcases List.mem_cons.mp he with h' | h'
      · exfalso
        subst h'
        rw [tableString_error_of_lookup_none hmiss hne] at hts
        exact Except.noConfusion hts
      · obtain ⟨msg, hmsg⟩ := buildTableStrings_error rest ⟨e, h', hmiss, hne⟩
        exact ⟨msg, by rw [buildTableStrings, hts, hmsg]⟩

theorem getD_map_lt {α β : Type} (f : α → β) :
    ∀ (l : List α) (i : Nat) (d : α) (e : β), i < l.length →
      (l.map f).getD i e = f (l.getD i d)
  | [], i, d, e => by simp
  | a :: l, 0, d, e => by simp
  | a :: l, i + 1, d, e => by
    intro h
    simp only [List.map_cons, List.getD_cons_succ]
    exact getD_map_lt f l i d e (by simpa using h)

/-- A reply with no fence delimiter yields no candidates. -/
theorem extract_of_not_containsFence (s : List Char)
    (h : containsFence s = false) :
    extract_queries_from_response s = [] := by
  unfold extract_queries_from_response
  rw [splitFence_of_not_containsFence s h]
  rfl

/-- C1 (corrected): the retry policy of lines 162-177 makes exactly 1
transport call when the first attempt succeeds; when every attempt fails it
makes exactly 3 total calls (2 retries after the first failure, since the
loop gives up as soon as `num_tries` reaches 3) and then reports a terminal
failure, on which the session ends with no further turn.  `nextK - k` is
the number of transport calls a run of the loop makes. -/
theorem C1_retry_policy (model : Nat → ModelResult) (k : Nat) :
    (∀ r, model k = ModelResult.ok r →
      retryLoop model k = RetryResult.success r (k + 1)) ∧
    (model k = ModelResult.fail → model (k + 1) = ModelResult.fail →
      model (k + 2) = ModelResult.fail →
      retryLoop model k = RetryResult.gaveUp (k + 3)) ∧
    (∀ (db : List Char → Except (List Char) (List Row))
        (tab : List Row → List Char) (inputs : List (List Char)) (k' : Nat),
      retryLoop model k = RetryResult.gaveUp k' →
      sessionLoop model db tab k inputs = ⟨EndReason.gaveUp, 0, []⟩) := by
  refine ⟨?_, ?_, ?_⟩
  · intro r h
    simp [retryLoop, retryGo, h]
  · intro h0 h1 h2
    simp [retryLoop, retryGo, h0, h1, h2]
  · intro db tab inputs k' h
    cases inputs with
    | nil => simp [sessionLoop, h]
    | cons u rest => simp [sessionLoop, h]

/-- Witness for C1: a transport that succeeds immediately is called once; a
transport that always fails is called three times before the give-up. -/
theorem C1_retry_policy_witness :
    retryLoop (fun _ => ModelResult.ok (("hello").data)) 0
      = RetryResult.success (("hello").data) 1 ∧
    retryLoop (fun _ => ModelResult.fail) 5 = RetryResult.gaveUp 8 :=
  ⟨(C1_retry_policy (fun _ => ModelResult.ok (("hello").data)) 0).1 _ rfl,
   (C1_retry_policy (fun _ => ModelResult.fail) 5).2.1 rfl rfl rfl⟩

/-- Counterexample for C1 as stated: with a transport that fails every
attempt, the loop gives up after 3 calls, not the 4 total calls (3 retries)
the claim states. -/
theorem C1_counterexample :
    retryLoop (fun _ => ModelResult.fail) 0 = RetryResult.gaveUp 3 ∧
    RetryResult.gaveUp 3 ≠ RetryResult.gaveUp 4 :=
  ⟨rfl, by decide⟩

/-- C2 (corrected): extraction returns exactly one candidate per odd-indexed
chunk of the fence split, in source order; but each candidate is its segment
with EVERY occurrence of the substring `sql` deleted (the source's
`replace("sql", "")`), then whitespace-stripped — not just a leading
language tag. -/
theorem C2_extract_candidates (s : List Char) :
    extract_queries_from_response s
      = (oddChunks (splitFence s)).map (fun c => pyStrip (removeSql c)) ∧
    (extract_queries_from_response s).length = (splitFence s).length / 2 := by
  refine ⟨extract_eq_map s, ?_⟩
  rw [extract_eq_map s, List.length_map, oddChunks_length]

/-- Counterexample for C2 as stated: the fenced segment `select sqlx` has no
leading `sql` tag, yet the source's `replace` deletes the embedded `sql`
and extraction returns `select x`, not the spec's leading-tag-stripped
`select sqlx`. -/
theorem C2_counterexample :
    extract_queries_from_response (("```select sqlx```").data)
        = [("select x").data] ∧
    specStripLeadingTag (("select sqlx").data) = ("select sqlx").data ∧
    ("select x").data ≠ ("select sqlx").data :=
  ⟨by decide, by decide, by decide⟩

/-- C3 (confirmed): the execution loop of lines 190-200 attempts every
candidate in list order, capturing one outcome per candidate in matching
order; the outcome of the `i`-th statement depends only on the transport's
answer for that statement, so an earlier failure does not prevent a later
statement from executing and succeeding.  The transport is modelled, per
the spec's external-interface contract, as a per-statement function. -/
theorem C3_outcomes_per_candidate (db : List Char → Except (List Char) (List Row))
    (tab : List Row → List Char) (queries : List (List Char)) :
    (runQueries db tab queries).1.length = queries.length ∧
    (runQueries db tab queries).1 = queries.map (outcomeOf db) ∧
    (∀ i, i < queries.length → ∀ rows,
      db (queries.getD i []) = Except.ok rows →
      (runQueries db tab queries).1.getD i (ExecutionOutcome.failure [])
        = ExecutionOutcome.success rows) := by
  have hq := runQueries_eq db tab queries
  refine ⟨?_, ?_, ?_⟩
  · rw [hq]
    simp
  · rw [hq]
  · intro i hi rows hdb
    rw [hq]
    have := getD_map_lt (outcomeOf db) queries i [] (ExecutionOutcome.failure []) hi
    rw [this]
    unfold outcomeOf
    simp only [List.getD] at hdb ⊢
    rw [hdb]

/-- Witness for C3: two statements where the first fails and the second
succeeds; the second still executes and its outcome is a success. -/
theorem C3_outcomes_per_candidate_witness :
    (runQueries
        (fun q => if q = ("BAD").data
          then Except.error (("syntax error").data)
          else Except.ok [[(("n").data, ("42").data)]])
        (fun _ => []) [("BAD").data, ("SELECT 1").data]).1.getD 1
          (ExecutionOutcome.failure [])
      = ExecutionOutcome.success [[(("n").data, ("42").data)]] :=
  (C3_outcomes_per_candidate
      (fun q => if q = ("BAD").data
        then Except.error (("syntax error").data)
        else Except.ok [[(("n").data, ("42").data)]])
      (fun _ => []) [("BAD").data, ("SELECT 1").data]).2.2
    1 (by decide) [[(("n").data, ("42").data)]] rfl

/-- C4 (code bug): evaluating the session loop shows the two completed exit
paths.  On the normal quit path `conn.close()` runs exactly once, but on
the terminal model-call failure path the source `return`s from `main`
at line 177 without ever reaching `conn.close()` at line 208: the
connection is released zero times, contradicting the claimed
release-exactly-once-on-every-path behaviour. -/
theorem C4_close_paths :
    sessionLoop (fun _ => ModelResult.fail) (fun _ => Except.ok [])
        (fun _ => []) 0 [("hi").data]
      = ⟨EndReason.gaveUp, 0, []⟩ ∧
    sessionLoop (fun _ => ModelResult.ok (("All done!").data))
        (fun _ => Except.ok []) (fun _ => []) 0 [("q").data]
      = ⟨EndReason.quit, 1, [[]]⟩ :=
  ⟨rfl, rfl⟩

/-- C5 (corrected): the comprehension at line 106 filters only on the chunk
index, never on the transformed text, so extraction keeps one candidate per
fenced region unconditionally — an empty or whitespace-only fenced region
contributes an empty-string candidate rather than being dropped. -/
theorem C5_empty_candidates_kept (s : List Char) :
    (extract_queries_from_response s).length
        = (oddChunks (splitFence s)).length ∧
    (∀ seg ∈ oddChunks (splitFence s),
      pyStrip (removeSql seg) ∈ extract_queries_from_response s) := by
  refine ⟨?_, ?_⟩
  · rw [extract_eq_map s, List.length_map]
  · intro seg hseg
    rw [extract_eq_map s]
    exact List.mem_map_of_mem _ hseg

/-- Witness for C5: the empty fenced region of `"``````"` contributes the
empty candidate. -/
theorem C5_empty_candidates_kept_witness :
    pyStrip (removeSql ([] : List Char))
      ∈ extract_queries_from_response (("``````").data) :=
  (C5_empty_candidates_kept (("``````").data)).2 [] (by decide)

/-- Counterexample for C5 as stated: a reply whose single fenced region is
empty still produces one (empty) candidate, where the claim says an empty
fenced region contributes no candidate. -/
theorem C5_counterexample :
    extract_queries_from_response (("``````").data) = [([] : List Char)] ∧
    ([([] : List Char)] : List (List Char)) ≠ [] :=
  ⟨rfl, by decide⟩

/-- A 100-row result set, each row rendering its index, large enough that a
"first few rows" preview would have to cut it off. -/
def rows6 : List Row :=
  (List.range 100).map (fun i => [((("n").data), (toString i).data)])

/-- A plain tabular renderer standing in for `tabulate(..., tablefmt='plain')`:
one line per row, values separated by spaces. -/
def tab6 : List Row → List Char := fun rows =>
  (rows.map (fun r => List.intercalate ((" ").data) (r.map Prod.snd)
    ++ ("\n").data)).flatten

/-- A transport whose single statement returns the 100-row result. -/
def db6 : List Char → Except (List Char) (List Row) := fun _ => Except.ok rows6

def q6 : List Char := ("SELECT n FROM studies").data

set_option maxRecDepth 40000 in
/-- C6 (code bug): for a successful statement the feedback text of line 197
does state the row count, but it hands the FULL fetched row list to the
tabular renderer — for a 100-row result the rendering of the last row
(`99`) appears in the feedback, even though the text itself announces only
"the first few rows".  The claim's bounded preview is never taken. -/
theorem C6_feedback_renders_all_rows :
    (runQueries db6 tab6 [q6]).2 = renderSuccess tab6 q6 rows6 ∧
    (("returned 100 rows").data <:+: (runQueries db6 tab6 [q6]).2) ∧
    (("Here are the first few rows:").data <:+: (runQueries db6 tab6 [q6]).2) ∧
    (("99").data <:+: tab6 rows6) ∧
    (("99").data <:+: (runQueries db6 tab6 [q6]).2) :=
  ⟨rfl, by decide, by decide, by decide, by decide⟩

/-- C7 (confirmed): a reply with no triple-backtick delimiter yields an
empty candidate list, no statement outcomes, an empty `result_string`, and
the session records the empty feedback for that turn and continues with the
next user input (the rest of the run is exactly the run from the next
turn on). -/
theorem C7_no_fence_turn (s u : List Char)
    (db : List Char → Except (List Char) (List Row))
    (tab : List Row → List Char) (model : Nat → ModelResult) (k : Nat)
    (inputs : List (List Char))
    (hnf : containsFence s = false) (hm : model k = ModelResult.ok s)
    (hu : pyLower u ≠ ("q").data) :
    extract_queries_from_response s = [] ∧
    runQueries db tab (extract_queries_from_response s) = ([], []) ∧
    (sessionLoop model db tab k (u :: inputs)).feedbacks
        = [] :: (sessionLoop model db tab (k + 1) inputs).feedbacks ∧
    (sessionLoop model db tab k (u :: inputs)).reason
        = (sessionLoop model db tab (k + 1) inputs).reason ∧
    (sessionLoop model db tab k (u :: inputs)).closes
        = (sessionLoop model db tab (k + 1) inputs).closes := by
  have hex : extract_queries_from_response s = [] :=
    extract_of_not_containsFence s hnf
  have hrq : runQueries db tab (extract_queries_from_response s) = ([], []) := by
    rw [hex]; rfl
  have hretry : retryLoop model k = RetryResult.success s (k + 1) := by
    simp [retryLoop, retryGo, hm]
  have hsess : sessionLoop model db tab k (u :: inputs)
      = ⟨(sessionLoop model db tab (k + 1) inputs).reason,
         (sessionLoop model db tab (k + 1) inputs).closes,
         [] :: (sessionLoop model db tab (k + 1) inputs).feedbacks⟩ := by
    rw [sessionLoop, hretry]
    simp only [hrq, if_neg hu]
  exact ⟨hex, hrq, by rw [hsess], by rw [hsess], by rw [hsess]⟩

/-- Witness for C7: a fence-free reply followed by a non-quit input. -/
theorem C7_no_fence_turn_witness :
    extract_queries_from_response (("No query needed.").data) = [] ∧
    runQueries (fun _ => Except.error (("unused").data)) (fun _ => [])
        (extract_queries_from_response (("No query needed.").data)) = ([], []) ∧
    (sessionLoop (fun _ => ModelResult.ok (("No query needed.").data))
        (fun _ => Except.error (("unused").data)) (fun _ => []) 0
        (("ok").data :: [("q").data])).feedbacks
      = [] :: (sessionLoop (fun _ => ModelResult.ok (("No query needed.").data))
          (fun _ => Except.error (("unused").data)) (fun _ => []) 1
          [("q").data]).feedbacks ∧
    (sessionLoop (fun _ => ModelResult.ok (("No query needed.").data))
        (fun _ => Except.error (("unused").data)) (fun _ => []) 0
        (("ok").data :: [("q").data])).reason
      = (sessionLoop (fun _ => ModelResult.ok (("No query needed.").data))
          (fun _ => Except.error (("unused").data)) (fun _ => []) 1
          [("q").data]).reason ∧
    (sessionLoop (fun _ => ModelResult.ok (("No query needed.").data))
        (fun _ => Except.error (("unused").data)) (fun _ => []) 0
        (("ok").data :: [("q").data])).closes
      = (sessionLoop (fun _ => ModelResult.ok (("No query needed.").data))
          (fun _ => Except.error (("unused").data)) (fun _ => []) 1
          [("q").data]).closes :=
  C7_no_fence_turn (("No query needed.").data) (("ok").data)
    (fun _ => Except.error (("unused").data)) (fun _ => [])
    (fun _ => ModelResult.ok (("No query needed.").data)) 0 [("q").data]
    (by decide) rfl (by decide)

/-- C8 (confirmed): a reply with an odd number of fence delimiters (an
unterminated fence) still yields the trailing segment as a candidate: the
candidate list is non-empty and its last element is the last chunk of the
split, transformed exactly like every other fenced region. -/
theorem C8_unterminated_fence (s : List Char) (h : numDelims s % 2 = 1) :
    extract_queries_from_response s ≠ [] ∧
    (extract_queries_from_response s).getLast?
      = ((splitFence s).getLast?).map (fun c => pyStrip (removeSql c)) := by
  have hone : 1 ≤ (splitFence s).length := by
    have := splitFence_ne_nil s
    cases hsp : splitFence s with
    | nil => exact absurd hsp this
    | cons a l => simp
  have heven : (splitFence s).length % 2 = 0 := by
    unfold numDelims at h
    omega
  have hnil : splitFence s ≠ [] := splitFence_ne_nil s
  have hlen2 : 2 ≤ (splitFence s).length := by
    unfold numDelims at h
    omega
  refine ⟨?_, ?_⟩
  · rw [extract_eq_map s]
    intro hcon
    have := congrArg List.length hcon
    rw [List.length_map, oddChunks_length] at this
    simp only [List.length_nil] at this
    omega
  · rw [extract_eq_map s, List.getLast?_map,
      oddChunks_getLast? (splitFence s) heven hnil]

/-- Witness for C8: `intro```SELECT 1` has one (unterminated) delimiter and
still yields `SELECT 1` as its (last) candidate. -/
theorem C8_unterminated_fence_witness :
    numDelims (("intro```SELECT 1").data) % 2 = 1 ∧
    extract_queries_from_response (("intro```SELECT 1").data) ≠ [] ∧
    (extract_queries_from_response (("intro```SELECT 1").data)).getLast?
      = ((splitFence (("intro```SELECT 1").data)).getLast?).map
          (fun c => pyStrip (removeSql c)) :=
  ⟨by decide, C8_unterminated_fence (("intro```SELECT 1").data) (by decide)⟩

/-- C9 (confirmed): when every table named in the catalog has an entry in
`example_rows` (possibly `None`), `format_schema` raises nothing and
returns the formatted text; and a column of an empty-sample table, or a
column absent from its table's sample row, renders with the literal `N/A`
example value. -/
theorem C9_format_schema_total (schema : List SchemaRow)
    (er : List (List Char × Option Row))
    (h : ∀ r ∈ schema, (lookupA er r.table_name).isSome) :
    (∃ out, format_schema schema er = Except.ok out) ∧
    (∀ tname col, lookupA er tname = some none →
      ∃ pre, columnLine er tname col
        = Except.ok (pre ++ ("; Example: N/A").data)) ∧
    (∀ tname col (m : Row), lookupA er tname = some (some m) →
      lookupA m col.column_name = none →
      ∃ pre, columnLine er tname col
        = Except.ok (pre ++ ("; Example: N/A").data)) := by
  refine ⟨?_, ?_, ?_⟩
  · have hkeys : ∀ e ∈ groupByTable schema, (lookupA er e.1).isSome := by
      intro e he
      have hk : e.1 ∈ (groupByTable schema).map Prod.fst :=
        List.mem_map_of_mem Prod.fst he
      obtain ⟨r, hr, hrk⟩ := groupByTable_keys hk
      rw [← hrk]
      exact h r hr
    obtain ⟨tss, htss⟩ := buildTableStrings_isOk (groupByTable schema) hkeys
    exact ⟨_, by unfold format_schema; rw [htss]⟩
  · intro tname col hl
    refine ⟨("  ").data ++ col.column_name ++ (" ").data ++ col.data_type
      ++ (" ").data
      ++ (if col.is_nullable = ("YES").data
          then ("NULL").data else ("NOT NULL").data), ?_⟩
    unfold columnLine
    rw [hl]
    simp [exampleValue]
  · intro tname col m hl hcol
    refine ⟨("  ").data ++ col.column_name ++ (" ").data ++ col.data_type
      ++ (" ").data
      ++ (if col.is_nullable = ("YES").data
          then ("NULL").data else ("NOT NULL").data), ?_⟩
    unfold columnLine
    rw [hl]
    simp [exampleValue, hcol]

/-- Witness for C9: a catalog with an empty-sample table and a table whose
sample lacks the column; formatting succeeds. -/
theorem C9_format_schema_total_witness :
    ∃ out, format_schema
      [⟨("studies").data, ("nct_id").data, ("text").data, ("NO").data, none⟩,
       ⟨("sites").data, ("city").data, ("text").data, ("YES").data, none⟩]
      [(("studies").data, none),
       (("sites").data, some [(("name").data, ("X").data)])]
      = Except.ok out :=
  (C9_format_schema_total
    [⟨("studies").data, ("nct_id").data, ("text").data, ("NO").data, none⟩,
     ⟨("sites").data, ("city").data, ("text").data, ("YES").data, none⟩]
    [(("studies").data, none),
     (("sites").data, some [(("name").data, ("X").data)])]
    (by decide)).1

/-- C10 (confirmed): if some catalog row names a table that is not a key of
`example_rows`, then the subscript `example_rows[table_name]` at line 83
raises `KeyError` and `format_schema` propagates the lookup error instead
of degrading to the `N/A` placeholder. -/
theorem C10_format_schema_missing_key (schema : List SchemaRow)
    (er : List (List Char × Option Row)) (r : SchemaRow)
    (hr : r ∈ schema) (hmiss : lookupA er r.table_name = none) :
    ∃ msg, format_schema schema er = Except.error msg := by
  have hk : r.table_name ∈ (groupByTable schema).map Prod.fst :=
    groupByTable_mem_keys hr
  obtain ⟨e, he, hek⟩ := List.mem_map.mp hk
  have hne : e.2 ≠ [] := groupByTable_snd_ne_nil e he
  have herr : ∃ msg, buildTableStrings er (groupByTable schema)
      = Except.error msg :=
    buildTableStrings_error (groupByTable schema)
      ⟨e, he, by rw [hek]; exact hmiss, hne⟩
  obtain ⟨msg, hmsg⟩ := herr
  exact ⟨msg, by unfold format_schema; rw [hmsg]⟩

/-- Witness for C10: a one-row catalog with an empty sample mapping makes
`format_schema` raise. -/
theorem C10_format_schema_missing_key_witness :
    ∃ msg, format_schema
      [⟨("studies").data, ("nct_id").data, ("text").data, ("NO").data, none⟩]
      [] = Except.error msg :=
  C10_format_schema_missing_key
    [⟨("studies").data, ("nct_id").data, ("text").data, ("NO").data, none⟩] []
    ⟨("studies").data, ("nct_id").data, ("text").data, ("NO").data, none⟩
    (by decide) rfl

end CtgovChat
